import Mathlib

/-!
Shallow embedding of `fid_score_lsun_numpy.py` (FID score computation).

Numbers are modelled as exact rationals; a numpy floating value that may be
non-finite (inf or nan) is modelled by `NpFloat`, which is either a finite
rational or the single non-finite marker `nonfin` (any arithmetic touching a
non-finite value yields a non-finite value, which is sound for the
finiteness distinctions the program makes).  The external library calls
(`scipy.linalg.sqrtm`, the Inception network) are oracles passed as function
arguments.  Input arrays hold finite values, as produced by `np.load` of
well-formed statistics.
-/

namespace FidSpec

/-- A numpy floating-point value: either a finite rational or non-finite
(inf/nan, conflated). -/
inductive NpFloat
  | fin (q : ℚ)
  | nonfin
deriving DecidableEq

/-- `np.isfinite` on one value. -/
def NpFloat.isFinite : NpFloat → Bool
  | .fin _ => true
  | .nonfin => false

/-- The finite value carried, 0 for the non-finite marker. -/
def NpFloat.toQ : NpFloat → ℚ
  | .fin q => q
  | .nonfin => 0

/-- Addition with non-finite propagation. -/
def npAdd : NpFloat → NpFloat → NpFloat
  | .fin a, .fin b => .fin (a + b)
  | _, _ => .nonfin

/-- Subtraction with non-finite propagation. -/
def npSub : NpFloat → NpFloat → NpFloat
  | .fin a, .fin b => .fin (a - b)
  | _, _ => .nonfin

/-- Multiplication with non-finite propagation. -/
def npMul : NpFloat → NpFloat → NpFloat
  | .fin a, .fin b => .fin (a * b)
  | _, _ => .nonfin

/-- Sum of a list of numpy values (non-finite if any summand is). -/
def npSum : List NpFloat → NpFloat
  | [] => .fin 0
  | x :: xs => npAdd x (npSum xs)

/-- One entry of a possibly-complex numpy matrix. -/
structure CEntry where
  re : NpFloat
  im : NpFloat
deriving DecidableEq

/-- The zero complex entry, used as out-of-range default. -/
def centry0 : CEntry := ⟨.fin 0, .fin 0⟩

/-- A numpy matrix as returned by `scipy.linalg.sqrtm`: entries plus the
dtype information `np.iscomplexobj` reads. -/
structure CMat where
  rows : List (List CEntry)
  isComplexObj : Bool
deriving DecidableEq

/-- `np.isfinite(M).all()`: every entry has finite real and imaginary part. -/
def allFiniteC (M : CMat) : Bool :=
  M.rows.all (fun r => r.all (fun e => e.re.isFinite && e.im.isFinite))

/-- Entries `A[i][i+k]` for successive rows: helper for `np.diagonal`. -/
def diagAux {α : Type} (d : α) : List (List α) → ℕ → List α
  | [], _ => []
  | r :: rs, i => r.getD i d :: diagAux d rs (i + 1)

/-- The diagonal of a list-of-lists matrix (`np.diagonal`). -/
def diagGet {α : Type} (d : α) (A : List (List α)) : List α :=
  diagAux d A 0

/-- `np.allclose(np.diagonal(M).imag, 0, atol=1e-3)` on one value: true iff
the value is finite with magnitude at most 1/1000 (comparisons with nan or
inf are false, as in IEEE arithmetic). -/
def npCloseZero : NpFloat → Bool
  | .fin q => |q| ≤ 1 / 1000
  | .nonfin => false

/-- `np.allclose(np.diagonal(M).imag, 0, atol=1e-3)`. -/
def allcloseDiagIm (M : CMat) : Bool :=
  (diagGet centry0 M.rows).all (fun e => npCloseZero e.im)

/-- `np.max(np.abs(M.imag))`: non-finite if any imaginary part is, else the
maximum magnitude. -/
def maxAbsIm (M : CMat) : NpFloat :=
  let ims := M.rows.flatten.map (fun e => e.im)
  if ims.all NpFloat.isFinite then .fin ((ims.map (fun v => |v.toQ|)).foldr max 0)
  else .nonfin

/-- `np.trace` of the (real part of the) matrix kept after the complex
check; the code reads `covmean.real` when the dtype is complex and the raw
matrix otherwise, and in both cases the real parts are summed. -/
def trReNp (M : CMat) : NpFloat :=
  npSum ((diagGet centry0 M.rows).map (fun e => e.re))

/-- The rational value of `trReNp` when all diagonal entries are finite. -/
def trReQ (M : CMat) : ℚ :=
  ((diagGet centry0 M.rows).map (fun e => e.re.toQ)).sum

/-- Dot product of two rational vectors (`a.dot(b)` for 1-d arrays). -/
def dotVec (a b : List ℚ) : ℚ := (List.zipWith (fun x y => x * y) a b).sum

/-- Column `j` of a list-of-lists matrix. -/
def colGet (B : List (List ℚ)) (j : ℕ) : List ℚ := B.map (fun r => r.getD j 0)

/-- Matrix product `A.dot(B)` for 2-d arrays. -/
def matMul (A B : List (List ℚ)) : List (List ℚ) :=
  A.map (fun row => (List.range (B.headD []).length).map (fun j => dotVec row (colGet B j)))

/-- Entrywise matrix sum `A + B`. -/
def matAdd (A B : List (List ℚ)) : List (List ℚ) :=
  List.zipWith (fun r s => List.zipWith (fun x y => x + y) r s) A B

/-- `np.eye(n) * eps`. -/
def eyeEps (n : ℕ) (eps : ℚ) : List (List ℚ) :=
  (List.range n).map (fun i => (List.range n).map (fun j => if i = j then eps else 0))

/-- `np.trace` of a rational matrix. -/
def tr (A : List (List ℚ)) : ℚ := (diagGet 0 A).sum

/-- The `.shape` of a 2-d array (rows, cols). -/
def mshape (A : List (List ℚ)) : ℕ × ℕ := (A.length, (A.headD []).length)

/-- A real rational matrix seen as the numpy matrix with zero imaginary
parts and a real dtype. -/
def realToC (A : List (List ℚ)) : CMat :=
  ⟨A.map (fun r => r.map (fun q => ⟨.fin q, .fin 0⟩)), false⟩

/-- The exceptions `calculate_frechet_distance` can raise: the two `assert`
failures and the `ValueError` carrying the maximum imaginary magnitude. -/
inductive FidError
  | meanShapeMismatch
  | covShapeMismatch
  | imaginaryComponent (m : NpFloat)
deriving DecidableEq

/-- Diagnostic messages printed by `calculate_frechet_distance`: the
singular-product fallback message, which names the epsilon used. -/
inductive FidMsg
  | singularFallback (eps : ℚ)
deriving DecidableEq

/-- Normal return or raised exception. -/
inductive FidRes
  | ok (v : NpFloat)
  | err (e : FidError)
deriving DecidableEq

/-- Printed messages plus the outcome of `calculate_frechet_distance`. -/
structure FidOutput where
  msgs : List FidMsg
  result : FidRes
deriving DecidableEq

/-- Lines 190-200 of the source: the complex check on the chosen square
root, then `diff.dot(diff) + np.trace(sigma1) + np.trace(sigma2) -
2 * tr_covmean`. -/
def finishDistance (diff : List ℚ) (sigma1 sigma2 : List (List ℚ)) (covmean : CMat) : FidRes :=
  if covmean.isComplexObj && ! allcloseDiagIm covmean then
    .err (.imaginaryComponent (maxAbsIm covmean))
  else
    .ok (npSub (.fin (dotVec diff diff + tr sigma1 + tr sigma2))
               (npMul (.fin 2) (trReNp covmean)))

/-- `calculate_frechet_distance(mu1, sigma1, mu2, sigma2, eps)` with
`scipy.linalg.sqrtm` passed as the oracle `sqrtm`.  The `np.atleast_1d` and
`np.atleast_2d` coercions are identities here because the inputs are typed
as a vector and a matrix. -/
def calculate_frechet_distance (sqrtm : List (List ℚ) → CMat)
    (mu1 : List ℚ) (sigma1 : List (List ℚ))
    (mu2 : List ℚ) (sigma2 : List (List ℚ)) (eps : ℚ) : FidOutput :=
  if mu1.length ≠ mu2.length then ⟨[], .err .meanShapeMismatch⟩
  else if mshape sigma1 ≠ mshape sigma2 then ⟨[], .err .covShapeMismatch⟩
  else
    let diff := List.zipWith (fun a b => a - b) mu1 mu2
    let covmean1 := sqrtm (matMul sigma1 sigma2)
    if allFiniteC covmean1 then
      ⟨[], finishDistance diff sigma1 sigma2 covmean1⟩
    else
      let offset := eyeEps sigma1.length eps
      let covmean2 := sqrtm (matMul (matAdd sigma1 offset) (matAdd sigma2 offset))
      ⟨[.singularFallback eps], finishDistance diff sigma1 sigma2 covmean2⟩

/-! ### Activation extractor (`get_activations_numpy`) -/

/-- The batches `l[i:i+B]` for `i in range(0, len(l), B)`, by fuel recursion
(`len(l)` steps always suffice for a positive step `B`). -/
def chunksAux {α : Type} : ℕ → ℕ → List α → List (List α)
  | 0, _, _ => []
  | fuel + 1, B, l => if l.isEmpty then [] else l.take B :: chunksAux fuel B (l.drop B)

/-- `get_activations_numpy(np_array, model, batch_size, ...)`.  The
pretrained network is the oracle `model`, applied image-wise (the real
network maps a batch to a stack of one activation row per image).  A batch
size larger than the array is clamped to the array length with a printed
warning; an effective batch size of zero makes `range(0, n, 0)` raise
`ValueError`, modelled as `none`.  Each loop iteration writes `model`'s rows
for `np_array[i:i+B]` into `pred_arr[i:i+B]`; the concatenation of the
per-batch results is the returned array. -/
def get_activations_numpy {α β : Type} (model : α → β)
    (np_array : List α) (batch_size : ℕ) : Option (List β) :=
  let B := if batch_size > np_array.length then np_array.length else batch_size
  if B = 0 then none
  else some (((chunksAux np_array.length B np_array).map (List.map model)).flatten)

/-! ### Moment estimator (`np.mean(act, axis=0)` and
`np.cov(act, rowvar=False)` on lines 228-229) -/

/-- `np.mean(A, axis=0)`: column-wise arithmetic mean. -/
def npMeanAxis0 (A : List (List ℚ)) : List ℚ :=
  (List.range (A.headD []).length).map
    (fun j => (A.map (fun r => r.getD j 0)).sum / (A.length : ℚ))

/-- `np.cov(A, rowvar=False)`: the unbiased sample covariance matrix of the
rows of `A`, normalized by `N - 1`. -/
def npCovRowvarFalse (A : List (List ℚ)) : List (List ℚ) :=
  let m := npMeanAxis0 A
  (List.range (A.headD []).length).map (fun j =>
    (List.range (A.headD []).length).map (fun k =>
      (A.map (fun r => (r.getD j 0 - m.getD j 0) * (r.getD k 0 - m.getD k 0))).sum
        / ((A.length : ℚ) - 1)))

/-! ### Startup of `calculate_fid_mnist_npy` (lines 211-219) -/

/-- Outcome of a run of the script: an explicit `exit(code)` with the last
diagnostic printed, or a completed computation. -/
inductive NpyRun (α : Type)
  | exited (code : ℕ) (diag : String)
  | finished (v : α)
deriving DecidableEq

/-- The process exit status when the run ended in an explicit `exit`. -/
def NpyRun.exitCode {α : Type} : NpyRun α → Option ℕ
  | .exited c _ => some c
  | .finished _ => none

/-- The reference-statistics check at the start of
`calculate_fid_mnist_npy`: when `./fid_stats_lsun_train.npz` exists its
`mu`/`sigma` arrays are read and the rest of the run (`rest`: loading the
input array, extracting activations, computing moments and the distance)
proceeds on them; otherwise the script prints
`could not find precomputed lsun stats, exiting` and calls `exit(0)`. -/
def calculate_fid_mnist_npy {α : Type} (statsFileExists : Bool)
    (refStats : List ℚ × List (List ℚ))
    (rest : List ℚ × List (List ℚ) → α) : NpyRun α :=
  if statsFileExists then .finished (rest refStats)
  else .exited 0 "could not find precomputed lsun stats, exiting"

/-! ### Store model for the frame property of `calculate_frechet_distance` -/

/-- A numpy array object living in memory. -/
inductive NpObj
  | vec (v : List ℚ)
  | mat (m : List (List ℚ))
  | cmat (m : CMat)
deriving DecidableEq

/-- The arrays allocated so far; an array reference is an index. -/
structure Store where
  objs : List NpObj
deriving DecidableEq

/-- Dereference an array. -/
def Store.read (st : Store) (i : ℕ) : Option NpObj := st.objs[i]?

/-- Allocate a fresh array, returning the new store and its reference. -/
def Store.alloc (st : Store) (o : NpObj) : Store × ℕ :=
  (⟨st.objs ++ [o]⟩, st.objs.length)

/-- Dereference, expecting a 1-d array. -/
def Store.readVec (st : Store) (i : ℕ) : Option (List ℚ) :=
  match st.read i with
  | some (.vec v) => some v
  | _ => none

/-- Dereference, expecting a 2-d array. -/
def Store.readMat (st : Store) (i : ℕ) : Option (List (List ℚ)) :=
  match st.read i with
  | some (.mat m) => some m
  | _ => none

/-- Store-level rendering of `calculate_frechet_distance`: the four inputs
are references into `st`, and every numpy operation of the body that
produces an array (`mu1 - mu2`, `.dot`, `linalg.sqrtm`, `np.eye(..) * eps`,
`sigma + offset`) allocates a fresh array; no operation of the source
updates an array in place, so the body never writes to an existing
reference.  Returns the final store and the outcome (`none` only for a
dangling input reference, which cannot arise in the program). -/
def calculate_frechet_distance_store (sqrtm : List (List ℚ) → CMat) (st : Store)
    (a1 s1 a2 s2 : ℕ) (eps : ℚ) : Store × Option FidOutput :=
  match st.readVec a1, st.readMat s1, st.readVec a2, st.readMat s2 with
  | some mu1, some sg1, some mu2, some sg2 =>
    if mu1.length ≠ mu2.length then (st, some ⟨[], .err .meanShapeMismatch⟩)
    else if mshape sg1 ≠ mshape sg2 then (st, some ⟨[], .err .covShapeMismatch⟩)
    else
      let diff := List.zipWith (fun a b => a - b) mu1 mu2
      let st1 := (st.alloc (.vec diff)).1
      let prod1 := matMul sg1 sg2
      let st2 := (st1.alloc (.mat prod1)).1
      let covmean1 := sqrtm prod1
      let st3 := (st2.alloc (.cmat covmean1)).1
      if allFiniteC covmean1 then
        (st3, some ⟨[], finishDistance diff sg1 sg2 covmean1⟩)
      else
        let offset := eyeEps sg1.length eps
        let st4 := (st3.alloc (.mat offset)).1
        let st5 := (st4.alloc (.mat (matAdd sg1 offset))).1
        let st6 := (st5.alloc (.mat (matAdd sg2 offset))).1
        let prod2 := matMul (matAdd sg1 offset) (matAdd sg2 offset)
        let st7 := (st6.alloc (.mat prod2)).1
        let covmean2 := sqrtm prod2
        let st8 := (st7.alloc (.cmat covmean2)).1
        (st8, some ⟨[.singularFallback eps], finishDistance diff sg1 sg2 covmean2⟩)
  | _, _, _, _ => (st, none)

/-- An all-zero covariance matrix of shape `n` by `n`. -/
def zeroMat (n : ℕ) : List (List ℚ) :=
  List.replicate n (List.replicate n (0 : ℚ))

/-! ### Supporting lemmas -/

theorem getD_mem_or {α : Type} (l : List α) (i : ℕ) (d : α) :
    l.getD i d ∈ l ∨ l.getD i d = d := by
  by_cases h : i < l.length
  · left
    rw [List.getD_eq_getElem l d h]
    exact List.getElem_mem h
  · right
    exact List.getD_eq_default l d (Nat.le_of_not_lt h)

theorem diagAux_mem {α : Type} (d : α) (A : List (List α)) (i : ℕ) (e : α)
    (he : e ∈ diagAux d A i) : e = d ∨ ∃ r ∈ A, e ∈ r := by
  induction A generalizing i with
  | nil => simp [diagAux] at he
  | cons r rs ih =>
    simp only [diagAux, List.mem_cons] at he
    rcases he with h | h
    · rcases getD_mem_or r i d with hm | hd
      · right
        exact ⟨r, by simp, h ▸ hm⟩
      · left
        exact h.trans hd
    · rcases ih (i + 1) h with h1 | ⟨s, hs, hes⟩
      · left
        exact h1
      · right
        exact ⟨s, by simp [hs], hes⟩

theorem npSum_fin (l : List NpFloat) (h : ∀ v ∈ l, v.isFinite = true) :
    npSum l = .fin ((l.map NpFloat.toQ).sum) := by
  induction l with
  | nil => simp [npSum]
  | cons x xs ih =>
    have hx := h x (by simp)
    cases x with
    | nonfin => simp [NpFloat.isFinite] at hx
    | fin q =>
      rw [npSum, ih (fun v hv => h v (by simp [hv]))]
      simp [npAdd, NpFloat.toQ]

theorem allFiniteC_diag {M : CMat} (h : allFiniteC M = true) :
    ∀ e ∈ diagGet centry0 M.rows, e.re.isFinite = true ∧ e.im.isFinite = true := by
  intro e he
  rcases diagAux_mem centry0 M.rows 0 e he with rfl | ⟨r, hr, her⟩
  · exact ⟨rfl, rfl⟩
  · simp only [allFiniteC, List.all_eq_true, Bool.and_eq_true] at h
    exact h r hr e her

theorem trReNp_fin {M : CMat} (h : allFiniteC M = true) :
    trReNp M = .fin (trReQ M) := by
  rw [trReNp, npSum_fin, trReQ]
  · rw [List.map_map]
    rfl
  · intro v hv
    simp only [List.mem_map] at hv
    obtain ⟨e, he, rfl⟩ := hv
    exact (allFiniteC_diag h e he).1

theorem finishDistance_of_negligible {covmean : CMat}
    (diff : List ℚ) (sigma1 sigma2 : List (List ℚ))
    (hfin : allFiniteC covmean = true)
    (him : covmean.isComplexObj = false ∨ allcloseDiagIm covmean = true) :
    finishDistance diff sigma1 sigma2 covmean =
      .ok (.fin (dotVec diff diff + tr sigma1 + tr sigma2 - 2 * trReQ covmean)) := by
  unfold finishDistance
  have ht := trReNp_fin hfin
  rcases him with h | h <;>
    simp [h, ht, npSub, npMul, mul_comm]

theorem any_not_eq_not_all {α : Type} (l : List α) (p : α → Bool) :
    l.any (fun e => ! p e) = ! l.all p := by
  induction l with
  | nil => rfl
  | cons x xs ih => simp [List.any_cons, List.all_cons, ih, Bool.not_and]

theorem frechet_finite_aux (sqrtm : List (List ℚ) → CMat)
    (mu1 : List ℚ) (sigma1 : List (List ℚ)) (mu2 : List ℚ) (sigma2 : List (List ℚ)) (eps : ℚ)
    (hmu : mu1.length = mu2.length)
    (hsg : mshape sigma1 = mshape sigma2)
    (hfin : allFiniteC (sqrtm (matMul sigma1 sigma2)) = true) :
    calculate_frechet_distance sqrtm mu1 sigma1 mu2 sigma2 eps =
      ⟨[], finishDistance (List.zipWith (fun a b => a - b) mu1 mu2) sigma1 sigma2
             (sqrtm (matMul sigma1 sigma2))⟩ := by
  unfold calculate_frechet_distance
  simp only [hmu, ne_eq, not_true_eq_false, if_false, hsg, hfin, if_true, ite_false, ite_true]

theorem frechet_formula_aux (sqrtm : List (List ℚ) → CMat)
    (mu1 : List ℚ) (sigma1 : List (List ℚ)) (mu2 : List ℚ) (sigma2 : List (List ℚ)) (eps : ℚ)
    (hmu : mu1.length = mu2.length)
    (hsg : mshape sigma1 = mshape sigma2)
    (hfin : allFiniteC (sqrtm (matMul sigma1 sigma2)) = true)
    (him : (sqrtm (matMul sigma1 sigma2)).isComplexObj = false ∨
           allcloseDiagIm (sqrtm (matMul sigma1 sigma2)) = true) :
    calculate_frechet_distance sqrtm mu1 sigma1 mu2 sigma2 eps =
      ⟨[], .ok (.fin (dotVec (List.zipWith (fun a b => a - b) mu1 mu2)
                             (List.zipWith (fun a b => a - b) mu1 mu2)
                   + tr sigma1 + tr sigma2
                   - 2 * trReQ (sqrtm (matMul sigma1 sigma2))))⟩ := by
  rw [frechet_finite_aux sqrtm mu1 sigma1 mu2 sigma2 eps hmu hsg hfin,
    finishDistance_of_negligible _ _ _ hfin him]

theorem frechet_fallback_aux (sqrtm : List (List ℚ) → CMat)
    (mu1 : List ℚ) (sigma1 : List (List ℚ)) (mu2 : List ℚ) (sigma2 : List (List ℚ)) (eps : ℚ)
    (hmu : mu1.length = mu2.length)
    (hsg : mshape sigma1 = mshape sigma2)
    (hnf : allFiniteC (sqrtm (matMul sigma1 sigma2)) = false) :
    calculate_frechet_distance sqrtm mu1 sigma1 mu2 sigma2 eps =
      ⟨[FidMsg.singularFallback eps],
       finishDistance (List.zipWith (fun a b => a - b) mu1 mu2) sigma1 sigma2
         (sqrtm (matMul (matAdd sigma1 (eyeEps sigma1.length eps))
                        (matAdd sigma2 (eyeEps sigma1.length eps))))⟩ := by
  unfold calculate_frechet_distance
  simp only [hmu, ne_eq, not_true_eq_false, if_false, hsg, hnf,
    Bool.false_eq_true, ite_false, ite_true]

/-! ### Claims -/

/-- C1: for matching shapes, when the matrix square root of
`sigma1.dot(sigma2)` is entirely finite and its imaginary component is
negligible (real dtype, or all diagonal imaginary magnitudes at most 1e-3),
`calculate_frechet_distance` returns
`||mu1 - mu2||^2 + Tr(sigma1) + Tr(sigma2) - 2 Tr(sqrtm(sigma1 sigma2))`. -/
theorem frechet_distance_formula (sqrtm : List (List ℚ) → CMat)
    (mu1 : List ℚ) (sigma1 : List (List ℚ)) (mu2 : List ℚ) (sigma2 : List (List ℚ)) (eps : ℚ)
    (hmu : mu1.length = mu2.length)
    (hsg : mshape sigma1 = mshape sigma2)
    (hfin : allFiniteC (sqrtm (matMul sigma1 sigma2)) = true)
    (him : (sqrtm (matMul sigma1 sigma2)).isComplexObj = false ∨
           allcloseDiagIm (sqrtm (matMul sigma1 sigma2)) = true) :
    calculate_frechet_distance sqrtm mu1 sigma1 mu2 sigma2 eps =
      ⟨[], .ok (.fin (dotVec (List.zipWith (fun a b => a - b) mu1 mu2)
                             (List.zipWith (fun a b => a - b) mu1 mu2)
                   + tr sigma1 + tr sigma2
                   - 2 * trReQ (sqrtm (matMul sigma1 sigma2))))⟩ :=
  frechet_formula_aux sqrtm mu1 sigma1 mu2 sigma2 eps hmu hsg hfin him

/-- Witness for C1 at a concrete 1-dimensional input. -/
theorem frechet_distance_formula_witness :
    ([(0 : ℚ)].length = [(1 : ℚ)].length ∧
     mshape [[(1 : ℚ)]] = mshape [[(4 : ℚ)]] ∧
     allFiniteC ((fun _ => (⟨[[⟨.fin 2, .fin 0⟩]], false⟩ : CMat))
       (matMul [[(1 : ℚ)]] [[(4 : ℚ)]])) = true ∧
     ((fun _ => (⟨[[⟨.fin 2, .fin 0⟩]], false⟩ : CMat))
       (matMul [[(1 : ℚ)]] [[(4 : ℚ)]])).isComplexObj = false) ∧
    calculate_frechet_distance (fun _ => ⟨[[⟨.fin 2, .fin 0⟩]], false⟩)
      [0] [[1]] [1] [[4]] (1 / 1000000) =
      ⟨[], .ok (.fin (dotVec (List.zipWith (fun a b => a - b) [0] [1])
                             (List.zipWith (fun a b => a - b) [0] [1])
                   + tr [[1]] + tr [[4]]
                   - 2 * trReQ ((fun _ => (⟨[[⟨.fin 2, .fin 0⟩]], false⟩ : CMat))
                       (matMul [[(1 : ℚ)]] [[(4 : ℚ)]]))))⟩ := by
  refine ⟨⟨rfl, rfl, by decide, rfl⟩, ?_⟩
  exact frechet_distance_formula _ [0] [[1]] [1] [[4]] (1 / 1000000)
    rfl rfl (by decide) (Or.inl rfl)

/-- C4: when the two mean vectors or the two covariance matrices differ in
shape, `calculate_frechet_distance` fails with one of the two assertion
errors and returns no distance value. -/
theorem shape_mismatch_assertion (sqrtm : List (List ℚ) → CMat)
    (mu1 : List ℚ) (sigma1 : List (List ℚ)) (mu2 : List ℚ) (sigma2 : List (List ℚ)) (eps : ℚ)
    (h : mu1.length ≠ mu2.length ∨ mshape sigma1 ≠ mshape sigma2) :
    calculate_frechet_distance sqrtm mu1 sigma1 mu2 sigma2 eps =
        ⟨[], .err .meanShapeMismatch⟩ ∨
    calculate_frechet_distance sqrtm mu1 sigma1 mu2 sigma2 eps =
        ⟨[], .err .covShapeMismatch⟩ := by
  unfold calculate_frechet_distance
  by_cases h1 : mu1.length = mu2.length
  · rcases h with h | h
    · exact absurd h1 h
    · right
      simp [h1, h]
  · left
    simp [h1]

/-- Witness for C4: a 1-element and a 2-element mean vector. -/
theorem shape_mismatch_assertion_witness :
    (([(0 : ℚ)].length ≠ [(0 : ℚ), 1].length ∨
      mshape [[(1 : ℚ)]] ≠ mshape [[(1 : ℚ)]]) ∧
     (calculate_frechet_distance (fun _ => realToC [[1]]) [0] [[1]] [0, 1] [[1]] (1 / 1000000) =
        ⟨[], .err .meanShapeMismatch⟩ ∨
      calculate_frechet_distance (fun _ => realToC [[1]]) [0] [[1]] [0, 1] [[1]] (1 / 1000000) =
        ⟨[], .err .covShapeMismatch⟩)) :=
  ⟨Or.inl (by decide),
   shape_mismatch_assertion (fun _ => realToC [[1]]) [0] [[1]] [0, 1] [[1]] (1 / 1000000)
     (Or.inl (by decide))⟩

/-- C5: when the first matrix square root of `sigma1.dot(sigma2)` has a
non-finite entry, `calculate_frechet_distance` prints exactly one
diagnostic, naming the epsilon added to the diagonals, recomputes the square
root of `(sigma1 + eps*I).dot(sigma2 + eps*I)` once, and finishes from that
retry result unconditionally: there is no second retry. -/
theorem singular_product_retry (sqrtm : List (List ℚ) → CMat)
    (mu1 : List ℚ) (sigma1 : List (List ℚ)) (mu2 : List ℚ) (sigma2 : List (List ℚ)) (eps : ℚ)
    (hmu : mu1.length = mu2.length)
    (hsg : mshape sigma1 = mshape sigma2)
    (hnf : allFiniteC (sqrtm (matMul sigma1 sigma2)) = false) :
    calculate_frechet_distance sqrtm mu1 sigma1 mu2 sigma2 eps =
      ⟨[FidMsg.singularFallback eps],
       finishDistance (List.zipWith (fun a b => a - b) mu1 mu2) sigma1 sigma2
         (sqrtm (matMul (matAdd sigma1 (eyeEps sigma1.length eps))
                        (matAdd sigma2 (eyeEps sigma1.length eps))))⟩ :=
  frechet_fallback_aux sqrtm mu1 sigma1 mu2 sigma2 eps hmu hsg hnf

/-- Witness for C5: an oracle returning a non-finite square root. -/
theorem singular_product_retry_witness :
    (([(0 : ℚ)].length = [(0 : ℚ)].length ∧
      mshape [[(0 : ℚ)]] = mshape [[(0 : ℚ)]] ∧
      allFiniteC ((fun _ => (⟨[[⟨.nonfin, .fin 0⟩]], false⟩ : CMat))
        (matMul [[(0 : ℚ)]] [[(0 : ℚ)]])) = false) ∧
     calculate_frechet_distance (fun _ => ⟨[[⟨.nonfin, .fin 0⟩]], false⟩)
        [0] [[0]] [0] [[0]] (1 / 1000000) =
      ⟨[FidMsg.singularFallback (1 / 1000000)],
       finishDistance (List.zipWith (fun a b => a - b) [0] [0]) [[0]] [[0]]
         ((fun _ => (⟨[[⟨.nonfin, .fin 0⟩]], false⟩ : CMat))
           (matMul (matAdd [[(0 : ℚ)]] (eyeEps [[(0 : ℚ)]].length (1 / 1000000)))
                   (matAdd [[(0 : ℚ)]] (eyeEps [[(0 : ℚ)]].length (1 / 1000000)))))⟩) :=
  ⟨⟨rfl, rfl, by decide⟩,
   singular_product_retry (fun _ => ⟨[[⟨.nonfin, .fin 0⟩]], false⟩)
     [0] [[0]] [0] [[0]] (1 / 1000000) rfl rfl (by decide)⟩

/-- C6: with a finite complex square-root result, `calculate_frechet_distance`
raises `ValueError`, reporting the maximum imaginary magnitude over all
entries, exactly when some diagonal imaginary magnitude exceeds 1e-3;
otherwise it discards the imaginary part and returns the distance computed
from the real part alone. -/
theorem imaginary_component_check (sqrtm : List (List ℚ) → CMat)
    (mu1 : List ℚ) (sigma1 : List (List ℚ)) (mu2 : List ℚ) (sigma2 : List (List ℚ)) (eps : ℚ)
    (hmu : mu1.length = mu2.length)
    (hsg : mshape sigma1 = mshape sigma2)
    (hfin : allFiniteC (sqrtm (matMul sigma1 sigma2)) = true)
    (hc : (sqrtm (matMul sigma1 sigma2)).isComplexObj = true) :
    (calculate_frechet_distance sqrtm mu1 sigma1 mu2 sigma2 eps =
        ⟨[], .err (.imaginaryComponent (maxAbsIm (sqrtm (matMul sigma1 sigma2))))⟩ ↔
      (diagGet centry0 (sqrtm (matMul sigma1 sigma2)).rows).any
        (fun e => ! npCloseZero e.im) = true) ∧
    (allcloseDiagIm (sqrtm (matMul sigma1 sigma2)) = true →
      calculate_frechet_distance sqrtm mu1 sigma1 mu2 sigma2 eps =
        ⟨[], .ok (.fin (dotVec (List.zipWith (fun a b => a - b) mu1 mu2)
                               (List.zipWith (fun a b => a - b) mu1 mu2)
                     + tr sigma1 + tr sigma2
                     - 2 * trReQ (sqrtm (matMul sigma1 sigma2))))⟩) := by
  have hres := frechet_finite_aux sqrtm mu1 sigma1 mu2 sigma2 eps hmu hsg hfin
  have hrw : ∀ M : CMat,
      (diagGet centry0 M.rows).any (fun e => ! npCloseZero e.im) = ! allcloseDiagIm M := by
    intro M
    rw [allcloseDiagIm]
    exact any_not_eq_not_all _ _
  constructor
  · rw [hres, hrw]
    unfold finishDistance
    cases hall : allcloseDiagIm (sqrtm (matMul sigma1 sigma2)) with
    | true => simp [hall, hc]
    | false => simp [hall, hc]
  · intro hall
    rw [hres, finishDistance_of_negligible _ _ _ hfin (Or.inr hall)]

/-- Witness for C6: a complex square root with imaginary part 1 on the
diagonal, which exceeds the 1e-3 tolerance. -/
theorem imaginary_component_check_witness :
    (([(0 : ℚ)].length = [(0 : ℚ)].length ∧
      mshape [[(1 : ℚ)]] = mshape [[(1 : ℚ)]] ∧
      allFiniteC ((fun _ => (⟨[[⟨.fin 0, .fin 1⟩]], true⟩ : CMat))
        (matMul [[(1 : ℚ)]] [[(1 : ℚ)]])) = true ∧
      ((fun _ => (⟨[[⟨.fin 0, .fin 1⟩]], true⟩ : CMat))
        (matMul [[(1 : ℚ)]] [[(1 : ℚ)]])).isComplexObj = true) ∧
    ((calculate_frechet_distance (fun _ => ⟨[[⟨.fin 0, .fin 1⟩]], true⟩)
        [0] [[1]] [0] [[1]] (1 / 1000000) =
        ⟨[], .err (.imaginaryComponent (maxAbsIm ((fun _ => (⟨[[⟨.fin 0, .fin 1⟩]], true⟩ : CMat))
          (matMul [[(1 : ℚ)]] [[(1 : ℚ)]]))))⟩ ↔
      (diagGet centry0 ((fun _ => (⟨[[⟨.fin 0, .fin 1⟩]], true⟩ : CMat))
          (matMul [[(1 : ℚ)]] [[(1 : ℚ)]])).rows).any
        (fun e => ! npCloseZero e.im) = true) ∧
    (allcloseDiagIm ((fun _ => (⟨[[⟨.fin 0, .fin 1⟩]], true⟩ : CMat))
        (matMul [[(1 : ℚ)]] [[(1 : ℚ)]])) = true →
      calculate_frechet_distance (fun _ => ⟨[[⟨.fin 0, .fin 1⟩]], true⟩)
        [0] [[1]] [0] [[1]] (1 / 1000000) =
        ⟨[], .ok (.fin (dotVec (List.zipWith (fun a b => a - b) [0] [0])
                               (List.zipWith (fun a b => a - b) [0] [0])
                     + tr [[1]] + tr [[1]]
                     - 2 * trReQ ((fun _ => (⟨[[⟨.fin 0, .fin 1⟩]], true⟩ : CMat))
                         (matMul [[(1 : ℚ)]] [[(1 : ℚ)]]))))⟩))) :=
  ⟨⟨rfl, rfl, by decide, rfl⟩,
   imaginary_component_check (fun _ => ⟨[[⟨.fin 0, .fin 1⟩]], true⟩)
     [0] [[1]] [0] [[1]] (1 / 1000000) rfl rfl (by decide) rfl⟩

theorem self_diff_dot (mu : List ℚ) :
    dotVec (List.zipWith (fun a b => a - b) mu mu)
           (List.zipWith (fun a b => a - b) mu mu) = 0 := by
  induction mu with
  | nil => rfl
  | cons a l ih =>
    unfold dotVec at ih ⊢
    simp only [List.zipWith_cons_cons, List.sum_cons, sub_self, zero_mul, zero_add]
    exact ih

theorem diagAux_map {α β : Type} (f : α → β) (d : α) (A : List (List α)) (i : ℕ) :
    diagAux (f d) (A.map (fun r => r.map f)) i = (diagAux d A i).map f := by
  induction A generalizing i with
  | nil => rfl
  | cons r rs ih =>
    simp only [List.map_cons, diagAux]
    congr 1
    · simp [List.getD_eq_getElem?_getD, List.getElem?_map]
    · exact ih (i + 1)

theorem allFiniteC_realToC (A : List (List ℚ)) : allFiniteC (realToC A) = true := by
  simp only [allFiniteC, realToC, List.all_eq_true]
  intro r hr e he
  simp only [List.mem_map] at hr
  obtain ⟨r0, _, rfl⟩ := hr
  simp only [List.mem_map] at he
  obtain ⟨q, _, rfl⟩ := he
  rfl

theorem trReQ_realToC (A : List (List ℚ)) : trReQ (realToC A) = tr A := by
  unfold trReQ tr diagGet realToC
  dsimp only
  rw [show centry0 = (fun q : ℚ => (⟨.fin q, .fin 0⟩ : CEntry)) 0 from rfl,
    diagAux_map (fun q : ℚ => (⟨.fin q, .fin 0⟩ : CEntry)) 0 A 0, List.map_map]
  congr 1
  show List.map id (diagAux 0 A 0) = diagAux 0 A 0
  exact List.map_id _

/-- C7: a Gaussian summary compared against itself, with the square root of
`sigma.dot(sigma)` computed exactly (the oracle returns `sigma` itself, the
exact real square root of the product for a positive semidefinite
covariance), gives distance 0, well within the 1e-4 tolerance. -/
theorem self_distance_zero (sqrtm : List (List ℚ) → CMat)
    (mu : List ℚ) (sigma : List (List ℚ)) (eps : ℚ)
    (hex : sqrtm (matMul sigma sigma) = realToC sigma) :
    ∃ v : ℚ, calculate_frechet_distance sqrtm mu sigma mu sigma eps =
        ⟨[], .ok (.fin v)⟩ ∧ |v| < 1 / 10000 := by
  refine ⟨0, ?_, by norm_num⟩
  have hfin : allFiniteC (sqrtm (matMul sigma sigma)) = true := by
    rw [hex]
    exact allFiniteC_realToC sigma
  have him : (sqrtm (matMul sigma sigma)).isComplexObj = false := by
    rw [hex]
    rfl
  rw [frechet_formula_aux sqrtm mu sigma mu sigma eps rfl rfl hfin (Or.inl him)]
  rw [hex, trReQ_realToC, self_diff_dot]
  norm_num
  ring

/-- Witness for C7 at a concrete one-dimensional summary. -/
theorem self_distance_zero_witness :
    ((fun _ => realToC [[(1 : ℚ)]]) (matMul [[(1 : ℚ)]] [[(1 : ℚ)]]) = realToC [[(1 : ℚ)]]) ∧
    (∃ v : ℚ, calculate_frechet_distance (fun _ => realToC [[(1 : ℚ)]])
        [0] [[1]] [0] [[1]] (1 / 1000000) = ⟨[], .ok (.fin v)⟩ ∧ |v| < 1 / 10000) :=
  ⟨rfl, self_distance_zero (fun _ => realToC [[(1 : ℚ)]]) [0] [[1]] (1 / 1000000) rfl⟩

/-- C9: with both covariances the all-zero matrix, a square-root oracle that
fails (non-finite entries) on the zero product and computes the exact square
root `eps * I` of `(eps * I).dot(eps * I)` on the retry,
`calculate_frechet_distance` raises nothing, prints the fallback diagnostic,
and returns a finite value. -/
theorem zero_covariance_fallback (sqrtm : List (List ℚ) → CMat)
    (mu1 mu2 : List ℚ) (n : ℕ) (eps : ℚ)
    (hmu : mu1.length = mu2.length)
    (hnf : allFiniteC (sqrtm (matMul (zeroMat n) (zeroMat n))) = false)
    (hretry : sqrtm (matMul (matAdd (zeroMat n) (eyeEps n eps))
                            (matAdd (zeroMat n) (eyeEps n eps))) = realToC (eyeEps n eps)) :
    ∃ v : ℚ, calculate_frechet_distance sqrtm mu1 (zeroMat n) mu2 (zeroMat n) eps =
      ⟨[FidMsg.singularFallback eps], .ok (.fin v)⟩ := by
  have hlen : (zeroMat n).length = n := by simp [zeroMat]
  rw [frechet_fallback_aux sqrtm mu1 (zeroMat n) mu2 (zeroMat n) eps hmu rfl hnf,
    hlen, hretry,
    finishDistance_of_negligible _ _ _ (allFiniteC_realToC _) (Or.inl rfl)]
  exact ⟨_, rfl⟩

/-- Witness for C9 at dimension 1: the oracle returns a nan matrix on the
zero product and the exact root on the regularized product. -/
theorem zero_covariance_fallback_witness :
    (([(0 : ℚ)].length = [(0 : ℚ)].length ∧
      allFiniteC ((fun M => if M = matMul (zeroMat 1) (zeroMat 1)
          then (⟨[[⟨.nonfin, .fin 0⟩]], false⟩ : CMat)
          else realToC (eyeEps 1 (1 / 1000000)))
        (matMul (zeroMat 1) (zeroMat 1))) = false ∧
      (fun M => if M = matMul (zeroMat 1) (zeroMat 1)
          then (⟨[[⟨.nonfin, .fin 0⟩]], false⟩ : CMat)
          else realToC (eyeEps 1 (1 / 1000000)))
        (matMul (matAdd (zeroMat 1) (eyeEps 1 (1 / 1000000)))
                (matAdd (zeroMat 1) (eyeEps 1 (1 / 1000000)))) =
          realToC (eyeEps 1 (1 / 1000000))) ∧
     ∃ v : ℚ, calculate_frechet_distance
        (fun M => if M = matMul (zeroMat 1) (zeroMat 1)
          then (⟨[[⟨.nonfin, .fin 0⟩]], false⟩ : CMat)
          else realToC (eyeEps 1 (1 / 1000000)))
        [0] (zeroMat 1) [0] (zeroMat 1) (1 / 1000000) =
      ⟨[FidMsg.singularFallback (1 / 1000000)], .ok (.fin v)⟩) := by
  have h1 : allFiniteC ((fun M => if M = matMul (zeroMat 1) (zeroMat 1)
      then (⟨[[⟨.nonfin, .fin 0⟩]], false⟩ : CMat)
      else realToC (eyeEps 1 (1 / 1000000)))
    (matMul (zeroMat 1) (zeroMat 1))) = false := by
    simp [allFiniteC, NpFloat.isFinite]
  have h2 : (fun M => if M = matMul (zeroMat 1) (zeroMat 1)
      then (⟨[[⟨.nonfin, .fin 0⟩]], false⟩ : CMat)
      else realToC (eyeEps 1 (1 / 1000000)))
    (matMul (matAdd (zeroMat 1) (eyeEps 1 (1 / 1000000)))
            (matAdd (zeroMat 1) (eyeEps 1 (1 / 1000000)))) =
      realToC (eyeEps 1 (1 / 1000000)) := by
    norm_num [matMul, matAdd, zeroMat, eyeEps, dotVec, colGet, List.range_succ]
  exact ⟨⟨rfl, h1, h2⟩,
    zero_covariance_fallback _ [0] [0] 1 (1 / 1000000) rfl h1 h2⟩

theorem chunksAux_flatten {α : Type} (fuel B : ℕ) (l : List α) (hB : B ≠ 0)
    (hf : l.length ≤ fuel) : (chunksAux fuel B l).flatten = l := by
  induction fuel generalizing l with
  | zero =>
    have hnil : l = [] := List.eq_nil_of_length_eq_zero (Nat.le_zero.mp hf)
    subst hnil
    rfl
  | succ n ih =>
    cases l with
    | nil => rfl
    | cons a as =>
      simp only [chunksAux, List.isEmpty_cons, Bool.false_eq_true, if_false,
        List.flatten_cons]
      rw [ih]
      · exact List.take_append_drop B (a :: as)
      · rw [List.length_drop]
        omega

theorem flatten_map_map {α β : Type} (f : α → β) (cs : List (List α)) :
    (cs.map (List.map f)).flatten = cs.flatten.map f := by
  induction cs with
  | nil => rfl
  | cons c cs ih => simp only [List.map_cons, List.flatten_cons, List.map_append, ih]

/-- Counterexample to C2: with 7 images and batch size 3 the extractor
processes all 7 images (batches of 3, 3 and 1), not 6: the loop
`for i in range(0, len(np_array), batch_size)` covers every index and the
output array is allocated with `len(np_array)` rows. -/
theorem get_activations_drop_counterexample :
    get_activations_numpy (fun n : ℕ => [n]) [0, 1, 2, 3, 4, 5, 6] 3 =
      some [[0], [1], [2], [3], [4], [5], [6]] ∧
    (get_activations_numpy (fun n : ℕ => [n]) [0, 1, 2, 3, 4, 5, 6] 3).map List.length =
      some 7 := by
  constructor <;> rfl

/-- C2 amended: for a non-zero batch size and a non-empty input, the
extractor processes every image, in the original order: the result is
exactly the image-wise network output over the whole input (so for 7 images
and batch size 3 it returns 7 activation rows, not 6). -/
theorem get_activations_processes_all {α β : Type} (model : α → β) (l : List α) (bs : ℕ)
    (hbs : bs ≠ 0) (hl : l ≠ []) :
    get_activations_numpy model l bs = some (l.map model) := by
  simp only [get_activations_numpy]
  have h0 : l.length ≠ 0 := fun h => hl (List.eq_nil_of_length_eq_zero h)
  by_cases hgt : bs > l.length
  · simp only [hgt, if_true, if_neg h0]
    rw [flatten_map_map, chunksAux_flatten l.length l.length l h0 le_rfl]
  · simp only [hgt, if_false, if_neg hbs]
    rw [flatten_map_map, chunksAux_flatten l.length bs l hbs le_rfl]

/-- Witness for the amended C2 at 7 images and batch size 3. -/
theorem get_activations_processes_all_witness :
    ((3 : ℕ) ≠ 0 ∧ ([0, 1, 2, 3, 4, 5, 6] : List ℕ) ≠ []) ∧
    get_activations_numpy (fun n : ℕ => [n]) [0, 1, 2, 3, 4, 5, 6] 3 =
      some (([0, 1, 2, 3, 4, 5, 6] : List ℕ).map (fun n => [n])) :=
  ⟨⟨by decide, by decide⟩,
   get_activations_processes_all (fun n : ℕ => [n]) [0, 1, 2, 3, 4, 5, 6] 3
     (by decide) (by decide)⟩

/-- Counterexample to C3: when the reference statistics file is absent the
script does abort with the diagnostic, but through `exit(0)`, so the process
exit status is 0, not a non-zero-equivalent failure status. -/
theorem missing_stats_exit_code_zero :
    (calculate_fid_mnist_npy false ([], []) (fun _ => (0 : ℚ))).exitCode = some 0 :=
  rfl

/-- C3 amended: if the reference statistics file is absent, the run aborts
immediately — independently of everything the rest of the run would compute
— printing `could not find precomputed lsun stats, exiting`, and exits with
status 0 (a success-equivalent status). -/
theorem missing_stats_aborts {α : Type} (refStats : List ℚ × List (List ℚ))
    (rest : List ℚ × List (List ℚ) → α) :
    calculate_fid_mnist_npy false refStats rest =
      .exited 0 "could not find precomputed lsun stats, exiting" :=
  rfl

set_option maxRecDepth 4000 in
/-- C8: the moment estimator is `np.mean(act, axis=0)` and
`np.cov(act, rowvar=False)` (unbiased, normalized by `N - 1`); on the
activation matrix `[[1,2],[3,4],[5,6]]` the mean is `[3,4]` and the
covariance is `[[4,4],[4,4]]`. -/
theorem moment_estimator_example :
    npMeanAxis0 [[1, 2], [3, 4], [5, 6]] = [3, 4] ∧
    npCovRowvarFalse [[1, 2], [3, 4], [5, 6]] = [[4, 4], [4, 4]] := by
  constructor
  · simp [npMeanAxis0, List.range_succ]
    norm_num
  · simp [npCovRowvarFalse, npMeanAxis0, List.range_succ]
    norm_num

theorem read_append (objs t : List NpObj) (i : ℕ) (hi : i < objs.length) :
    (Store.mk (objs ++ t)).read i = (Store.mk objs).read i := by
  simp only [Store.read]
  exact List.getElem?_append_left hi

/-- C10: `calculate_frechet_distance` never writes to a pre-existing array:
whatever references are passed for the four inputs and whichever path is
taken (normal, epsilon-diagonal fallback, or an error path), every array
present in the store before the call — in particular the caller's four
input arrays — is unchanged afterwards. -/
theorem frechet_distance_no_mutation (sqrtm : List (List ℚ) → CMat) (st : Store)
    (a1 s1 a2 s2 : ℕ) (eps : ℚ) (i : ℕ) (hi : i < st.objs.length) :
    (calculate_frechet_distance_store sqrtm st a1 s1 a2 s2 eps).1.read i = st.read i := by
  unfold calculate_frechet_distance_store
  split
  · split
    · rfl
    · split
      · rfl
      · dsimp only
        split
        · simp only [Store.alloc, List.append_assoc]
          exact read_append st.objs _ i hi
        · simp only [Store.alloc, List.append_assoc]
          exact read_append st.objs _ i hi
  · rfl

/-- Witness for C10: a store holding the four input arrays, checking the
second one is untouched. -/
theorem frechet_distance_no_mutation_witness :
    (1 < (Store.mk [.vec [0], .mat [[1]], .vec [0], .mat [[1]]]).objs.length) ∧
    (calculate_frechet_distance_store (fun _ => realToC [[1]])
        (Store.mk [.vec [0], .mat [[1]], .vec [0], .mat [[1]]]) 0 1 2 3 (1 / 1000000)).1.read 1 =
      (Store.mk [.vec [0], .mat [[1]], .vec [0], .mat [[1]]]).read 1 :=
  ⟨by decide,
   frechet_distance_no_mutation (fun _ => realToC [[1]])
     (Store.mk [.vec [0], .mat [[1]], .vec [0], .mat [[1]]]) 0 1 2 3 (1 / 1000000) 1
     (by decide)⟩

end FidSpec
